import Mathlib

/-!
Shallow embedding of the synchronization core of this repository: the class
PrioritisedObject in src/src/data/PrioritisedObject.js.  The embedding keeps
the observable state of one instance explicit: the schema fields (the shadow
object), the staged keys (the field named _accessedKeys in the source), the
suspension flag (_changeListenersDisabled), the local eventemitter3 listener
lists, the DataSource callback registrations, and logs of the outbound
DataSource writes (setWithPriority, setPriority) and of the locally emitted
events (changed, value, ready).  Field values are modelled as integers;
listener handlers and contexts are modelled by numeric identities.
-/

namespace ArvaSync

/-- Event categories of the local event surface of PrioritisedObject:
ready, value, changed, added, moved, removed. -/
inductive Ev where
  | ready
  | value
  | changed
  | added
  | moved
  | removed
  deriving DecidableEq

/-- One registered eventemitter3 listener: the identity of the handler
function and the identity of the bound context object.  eventemitter3
stores exactly this pair per registration. -/
structure Listener where
  fn : Nat
  ctx : Nat
  deriving DecidableEq

/-- Payload of an emitted changed event.  The local setter path
(onSetterTriggered, source lines 354 to 363) emits the changed property
names together with their shadow values; the unreachable remote path in
onChildValue (source line 406) would emit the result of
getDiffingKeysFromOther, which is undefined because that function has no
return statement. -/
inductive ChangedPayload where
  | setter (changedProperties : List (Option String)) (changedValues : List (Option Int))
  | remote (diff : Option (List String))
  deriving DecidableEq

/-- External Snapshot contract (spec section 4.3): a value map, a priority
and a key.  The child count of a snapshot (numChildren in the source) is
the number of entries of its value map, as for a document-tree store
snapshot. -/
structure Snapshot where
  val : List (String × Int)
  priority : Int
  key : String
  deriving DecidableEq

/-- Observable state of one PrioritisedObject instance.  The fields list is
the enumerable shadow (schema field names with their current values);
accessedKeys is the _accessedKeys array (staged keys; entries are Option
String because the flush at the end of transaction calls the setter hook
with no key, so the undefined key is staged or emitted as none); subs are
the eventemitter3 listener lists per event; valueCb, addedCb, movedCb,
removedCb, childChangedCb record which DataSource callbacks are currently
registered; pushes logs every setWithPriority call (full enumerable shadow
plus priority); priorityUpdates logs every setPriority call; changedEmits,
valueEmits and readyEmits log the locally emitted events. -/
structure PState where
  id : Option String
  priority : Int
  fields : List (String × Int)
  accessedKeys : List (Option String)
  changeListenersDisabled : Bool
  subs : Ev → List Listener
  valueCb : Bool
  addedCb : Bool
  movedCb : Bool
  removedCb : Bool
  childChangedCb : Bool
  dsReady : Bool
  pushes : List (List (String × Int) × Int)
  priorityUpdates : List Int
  changedEmits : List ChangedPayload
  valueEmits : Nat
  readyEmits : Nat

/-- State of a freshly constructed instance, before any snapshot is
applied (constructor, source lines 56 to 92): the id is taken from the
DataSource key, priority is 0, change listeners are enabled, there are no
registered local listeners and no DataSource callbacks, and nothing has
been pushed or emitted.  The schema argument lists the model fields
declared as enumerable properties on the concrete subclass, with their
initial values. -/
def mkInit (key : String) (schema : List (String × Int)) : PState where
  id := some key
  priority := 0
  fields := schema
  accessedKeys := []
  changeListenersDisabled := false
  subs := fun _ => []
  valueCb := false
  addedCb := false
  movedCb := false
  removedCb := false
  childChangedCb := false
  dsReady := false
  pushes := []
  priorityUpdates := []
  changedEmits := []
  valueEmits := 0
  readyEmits := 0

/-- disableChangeListener (source lines 249 to 251): sets the suspension
flag. -/
def disableChangeListener (s : PState) : PState :=
  { s with changeListenersDisabled := true }

/-- enableChangeListener (source lines 259 to 261): clears the suspension
flag unconditionally. -/
def enableChangeListener (s : PState) : PState :=
  { s with changeListenersDisabled := false }

/-- hasListenersOfType (source lines 412 to 414): the eventemitter3 call
listeners(type, true) returns whether any listener of the type exists. -/
def hasListenersOfType (s : PState) (e : Ev) : Bool :=
  !(s.subs e).isEmpty

/-- Replaces the value bound to a key in the shadow; a key that is not
already declared is left alone (assigning it would not go through a
defined setter). -/
def setField (fs : List (String × Int)) (k : String) (v : Int) : List (String × Int) :=
  match fs with
  | [] => []
  | (a, b) :: t => if a = k then (k, v) :: setField t k v else (a, b) :: setField t k v

/-- onSetterTriggered (source lines 354 to 363).  When the change
listeners are enabled: changedProperties is _accessedKeys concatenated
with the written key (concat does not mutate _accessedKeys and nothing
ever resets it), changedValues are the shadow values of those names, a
changed event is emitted, and the full enumerable shadow is pushed with
setWithPriority.  When the change listeners are disabled: the key is
appended to _accessedKeys and nothing is emitted or pushed. -/
def onSetterTriggered (key : Option String) (s : PState) : PState :=
  if s.changeListenersDisabled = false then
    let changedProperties := s.accessedKeys ++ [key]
    let changedValues := changedProperties.map (fun kk => kk.bind (fun kn => s.fields.lookup kn))
    let s1 := { s with changedEmits := s.changedEmits ++ [ChangedPayload.setter changedProperties changedValues] }
    { s1 with pushes := s1.pushes ++ [(s1.fields, s1.priority)] }
  else
    { s with accessedKeys := s.accessedKeys ++ [key] }

/-- Modelled from the spec: the Property Reflector (ObjectHelper,
repository file src/utils/ObjectHelper.js, which is not included under
src/) defines each schema field with get and set interception.  A write to
a schema field first updates the hidden shadow value and then invokes the
registered on-set hook, which the source wires to
onSetterTriggered(key) (source line 298). -/
def writeField (k : String) (v : Int) (s : PState) : PState :=
  onSetterTriggered (some k) { s with fields := setField s.fields k v }

/-- A transaction body that performs the given schema field writes in
order through the setter pipeline. -/
def runWrites (ws : List (String × Int)) (s : PState) : PState :=
  match ws with
  | [] => s
  | w :: t => runWrites t (writeField w.1 w.2 s)

/-- transaction (source lines 238 to 243): disable the change listeners,
run the body, enable the change listeners, then call the setter hook once
with no key to flush. -/
def transaction (body : PState → PState) (s : PState) : PState :=
  onSetterTriggered none (enableChangeListener (body (disableChangeListener s)))

/-- The priority setter (source lines 39 to 44): only when the written
value differs from the current priority does it store the value and call
setPriority on the DataSource.  It never consults the suspension flag and
never touches _accessedKeys. -/
def setPriorityProp (v : Int) (s : PState) : PState :=
  if s.priority ≠ v then
    { s with priority := v, priorityUpdates := s.priorityUpdates ++ [v] }
  else
    s

/-- Modelled from the spec: one step of the loop in _buildFromSnapshot
(source lines 293 to 301).  A snapshot entry is materialized only when its
key is already a declared enumerable property of the model; the call to
ObjectHelper.addPropertyToObject (repository file src/utils/ObjectHelper.js,
not included under src/) defines the field with the snapshot value and
attaches the interception hooks for subsequent accesses, without invoking
the on-set hook for this initial assignment. -/
def applySnapField (s : PState) (kv : String × Int) : PState :=
  if (s.fields.lookup kv.1).isSome then
    { s with fields := setField s.fields kv.1 kv.2 }
  else
    s

/-- _buildFromSnapshot (source lines 271 to 305): set the priority from
the snapshot, take the id from the snapshot when unset, and when the
snapshot has zero children mark ready and emit ready without populating
fields; otherwise materialize every declared key of the snapshot value,
then mark ready and emit ready.  The source branch taking the DataSource
from the snapshot reference is not modelled because instances here always
hold a DataSource. -/
def buildFromSnapshot (snap : Snapshot) (s : PState) : PState :=
  let s1 := { s with priority := snap.priority }
  let data := snap.val
  let numChildren := data.length
  let s2 := if s1.id.isNone then { s1 with id := some snap.key } else s1
  if numChildren = 0 then
    { s2 with dsReady := true, readyEmits := s2.readyEmits + 1 }
  else
    let s3 := data.foldl applySnapField s2
    { s3 with dsReady := true, readyEmits := s3.readyEmits + 1 }

/-- Construction from a prefetched snapshot (constructor, source lines 87
to 88): the fresh instance is built and then _buildFromSnapshot runs with
the change listeners in their default enabled state. -/
def constructFromSnapshot (key : String) (schema : List (String × Int)) (snap : Snapshot) : PState :=
  buildFromSnapshot snap (mkInit key schema)

/-- _buildFromSnapshotWithoutSynchronizing (source lines 416 to 421):
disable, rebuild from the snapshot, enable. -/
def buildFromSnapshotWithoutSynchronizing (snap : Snapshot) (s : PState) : PState :=
  enableChangeListener (buildFromSnapshot snap (disableChangeListener s))

/-- The source line `if (every)` (source line 395) tests the truthiness of
the identifier every, which is the function imported from
lodash/every.js, not a call of it; a function object is always truthy. -/
def lodashEveryTruthy : Bool := true

/-- _getDiffingKeysFromOther (source lines 371 to 376): the body computes
Object.keys(otherObject).filter(...) but the function has no return
statement, so every call evaluates to undefined (and the filter callback
receives the element and the index where the source names them value and
key). -/
def getDiffingKeysFromOther (_this : PState) (_otherObject : List (String × Int)) : Option (List String) :=
  none

/-- eventemitter3 removeListener semantics (the else branches of off,
source lines 192 to 197): with no handler the whole listener list of the
event is cleared (this also covers removeAllListeners(event)); with a
handler, exactly the registrations whose function matches it, and whose
context matches the given one when a context is given, are removed. -/
def removeMatches (fn ctx : Option Nat) (ls : List Listener) : List Listener :=
  match fn with
  | none => []
  | some f =>
      ls.filter (fun l =>
        match ctx with
        | none => !(l.fn == f)
        | some c => !(l.fn == f && l.ctx == c))

/-- super.on of eventemitter3: append the registration to the listener
list of the event. -/
def addSub (e : Ev) (l : Listener) (s : PState) : PState :=
  { s with subs := fun x => if x = e then s.subs x ++ [l] else s.subs x }

/-- on (source lines 135 to 182).  haveListeners is computed before the
registration is appended.  ready: fire the handler immediately when ready
(no state change).  value: register the value callback only when there
were no previous value listeners.  added: the source registers the child
added callback when haveListeners is already true (the only case without
the negation).  changed: register the value callback when there is no
value listener.  moved and removed: register the respective callback when
there were no previous listeners. -/
def onEvt (e : Ev) (l : Listener) (s : PState) : PState :=
  let haveListeners := hasListenersOfType s e
  let s1 := addSub e l s
  match e with
  | Ev.ready => s1
  | Ev.value => if haveListeners then s1 else { s1 with valueCb := true }
  | Ev.added => if haveListeners then { s1 with addedCb := true } else s1
  | Ev.changed => if hasListenersOfType s1 Ev.value then s1 else { s1 with valueCb := true }
  | Ev.moved => if haveListeners then s1 else { s1 with movedCb := true }
  | Ev.removed => if haveListeners then s1 else { s1 with removedCb := true }

/-- The removal prelude of off (source lines 192 to 197), folded into one
operation: with a handler or a context, super.removeListener runs;
otherwise super.removeAllListeners(event) runs.  Both reduce to
removeMatches on the listener list of the event. -/
def offRemove (e : Ev) (fn ctx : Option Nat) (s : PState) : PState :=
  { s with subs := fun x => if x = e then removeMatches fn ctx (s.subs x) else s.subs x }

/-- off (source lines 192 to 230).  After removal, when no listener of the
event remains: value removes the value callback only when there is also no
changed listener; added and moved remove their callbacks; removed removes
the value callback when there is no value listener (and never the child
removed callback); changed removes the child changed callback (which is
never registered anywhere), not the value callback. -/
def off (e : Ev) (fn ctx : Option Nat) (s : PState) : PState :=
  let s1 := offRemove e fn ctx s
  if hasListenersOfType s1 e then s1
  else
    match e with
    | Ev.ready => s1
    | Ev.value => if hasListenersOfType s1 Ev.changed then s1 else { s1 with valueCb := false }
    | Ev.added => { s1 with addedCb := false }
    | Ev.moved => { s1 with movedCb := false }
    | Ev.removed => if hasListenersOfType s1 Ev.value then s1 else { s1 with valueCb := false }
    | Ev.changed => { s1 with childChangedCb := false }

/-- One subscribe or unsubscribe call on the object. -/
inductive SubOp where
  | subOn (e : Ev) (fn ctx : Nat)
  | subOff (e : Ev) (fn ctx : Option Nat)
  deriving DecidableEq

/-- Apply one subscription call. -/
def applySubOp (s : PState) (op : SubOp) : PState :=
  match op with
  | SubOp.subOn e fn ctx => onEvt e ⟨fn, ctx⟩ s
  | SubOp.subOff e fn ctx => off e fn ctx s

/-- Run a sequence of subscribe and unsubscribe calls in order. -/
def runSubOps (s : PState) (ops : List SubOp) : PState :=
  match ops with
  | [] => s
  | op :: t => runSubOps (applySubOp s op) t

/-- _onChildValue (source lines 385 to 410): disable the change listeners,
read the snapshot value, compute the (undefined) diffing keys, and then,
because the identifier every is truthy, always emit the value event,
enable the change listeners and return.  The remainder (rebuilding from
the snapshot and emitting changed to changed listeners) is unreachable but
embedded faithfully. -/
def onChildValue (snap : Snapshot) (_previousSiblingID : Nat) (s : PState) : PState :=
  let s1 := disableChangeListener s
  let incomingData := snap.val
  let changedPropertyNames := getDiffingKeysFromOther s1 incomingData
  if lodashEveryTruthy then
    enableChangeListener { s1 with valueEmits := s1.valueEmits + 1 }
  else
    let s2 := buildFromSnapshotWithoutSynchronizing snap s1
    let s3 := { s2 with valueEmits := s2.valueEmits + 1 }
    let s4 :=
      if hasListenersOfType s3 Ev.changed then
        { s3 with changedEmits := s3.changedEmits ++ [ChangedPayload.remote changedPropertyNames] }
      else s3
    enableChangeListener s4

/-- State of one one-shot subscription experiment for once (source lines
118 to 126): the listener list of the subscribed event, the number of
times the user handler has been called, and the value the returned promise
was resolved with (a promise resolves at most once, with the arguments of
the first resolve call). -/
structure OnceState where
  ls : List Listener
  handlerCalls : Nat
  resolved : Option (List Int)
  deriving DecidableEq

/-- Fresh emitter state for the once experiment. -/
def onceInit : OnceState where
  ls := []
  handlerCalls := 0
  resolved := none

/-- once registers the wrapper via this.on(event, onceWrapper, this): the
registration context is the object itself (identity self). -/
def onceSubscribe (wid selfCtx : Nat) (s : OnceState) : OnceState :=
  { s with ls := s.ls ++ [⟨wid, selfCtx⟩] }

/-- Body of onceWrapper (source lines 120 to 124): first
this.off(event, onceWrapper, context) with the context the CALLER passed
to once (eventemitter3 removes only registrations whose context matches
it), then the user handler is called, then resolve runs with the delivered
arguments (only the first resolve call takes effect). -/
def onceWrapperBody (wid userCtx : Nat) (args : List Int) (s : OnceState) : OnceState :=
  let s1 := { s with ls := s.ls.filter (fun l => !(l.fn == wid && l.ctx == userCtx)) }
  let s2 := { s1 with handlerCalls := s1.handlerCalls + 1 }
  { s2 with resolved := match s2.resolved with | none => some args | some r => some r }

/-- One firing of the subscribed event: when the wrapper is still
registered, eventemitter3 invokes it with the emitted arguments. -/
def onceFire (wid userCtx : Nat) (args : List Int) (s : OnceState) : OnceState :=
  if s.ls.any (fun l => l.fn == wid) then onceWrapperBody wid userCtx args s else s

/-- Concrete object with one registered changed listener and a score field,
used for incoming-update evaluation. -/
def c2Start : PState := onEvt Ev.changed ⟨7, 0⟩ (mkInit "n" [("score", 1)])

/-- Incoming snapshot whose score differs from the local value. -/
def c2Snap : Snapshot where
  val := [("score", 2)]
  priority := 0
  key := "k"

/-- Concrete object with one registered changed listener, used for the
empty transaction evaluation. -/
def c3Start : PState := onEvt Ev.changed ⟨1, 0⟩ (mkInit "n" [("a", 0)])

/-- Concrete two-field object for the staged-keys evaluation. -/
def c4Start : PState := mkInit "n" [("a", 0), ("b", 0)]

/-- The object after a transaction that writes field a (one flush has
happened). -/
def c4Mid : PState := transaction (runWrites [("a", 1)]) c4Start

/-- The object after a subsequent plain write of field b. -/
def c4End : PState := writeField "b" 2 c4Mid

/-- Result of subscribing one changed listener and then unsubscribing it
again. -/
def c6Run : PState :=
  runSubOps (mkInit "n" []) [SubOp.subOn Ev.changed 1 0, SubOp.subOff Ev.changed (some 1) (some 0)]

/-- Result of subscribing one changed listener and one removed listener
and then unsubscribing the removed listener again. -/
def c6RunB : PState :=
  runSubOps (mkInit "n" [])
    [SubOp.subOn Ev.changed 1 0, SubOp.subOn Ev.removed 2 0,
     SubOp.subOff Ev.removed (some 2) (some 0)]

/-- Once experiment with a custom context: the wrapper (function identity
0) is registered with the object itself (context identity 0) while the
caller passed the distinct context identity 7; the event then fires twice
with argument list [5]. -/
def c7Run : OnceState :=
  onceFire 0 7 [5] (onceFire 0 7 [5] (onceSubscribe 0 0 onceInit))

/-- Two-field schema used for the materialization witness. -/
def c8Schema : List (String × Int) := [("name", 0), ("score", 0)]

/-- Snapshot used for the materialization witness. -/
def c8Snap : Snapshot where
  val := [("name", 9), ("score", 1)]
  priority := 5
  key := "kk"

/- ===================== theorems ===================== -/

theorem hasListenersNe (s : PState) (e : Ev) :
    hasListenersOfType s e = true ↔ s.subs e ≠ [] := by
  unfold hasListenersOfType
  cases h : s.subs e <;> simp

theorem hasListenersFalseNil (s : PState) (e : Ev) :
    hasListenersOfType s e = false ↔ s.subs e = [] := by
  unfold hasListenersOfType
  cases h : s.subs e <;> simp

theorem removeMatchesNilOfNil (fn ctx : Option Nat) :
    removeMatches fn ctx [] = [] := by
  cases fn <;> rfl

/-- C1: for every snapshot contents and every current state, applying an
incoming remote value notification through _onChildValue issues no
setWithPriority push and no setPriority update; in particular a local
write followed by a remote notification reporting the same values produces
no second push. -/
theorem noEchoOnRemoteValue (snap : Snapshot) (psid : Nat) (s : PState) :
    (onChildValue snap psid s).pushes = s.pushes ∧
    (onChildValue snap psid s).priorityUpdates = s.priorityUpdates :=
  ⟨rfl, rfl⟩

/-- C2: evaluation of _onChildValue at an object holding score 1 with one
active changed listener, receiving a snapshot reporting score 2.  The code
leaves the field unchanged, emits no changed event, emits one value event
and re-enables the change listeners, because the branch `if (every)` tests
the truthiness of the imported lodash function and always returns
early. -/
theorem remoteUpdateShortCircuitBug :
    hasListenersOfType c2Start Ev.changed = true ∧
    (onChildValue c2Snap 0 c2Start).fields = [("score", 1)] ∧
    (onChildValue c2Snap 0 c2Start).changedEmits = [] ∧
    (onChildValue c2Snap 0 c2Start).valueEmits = 1 ∧
    (onChildValue c2Snap 0 c2Start).changeListenersDisabled = false := by
  decide

theorem runWritesDisabled (ws : List (String × Int)) (s : PState)
    (h : s.changeListenersDisabled = true) :
    (runWrites ws s).changeListenersDisabled = true ∧
    (runWrites ws s).pushes = s.pushes ∧
    (runWrites ws s).changedEmits = s.changedEmits := by
  induction ws generalizing s with
  | nil => exact ⟨h, rfl, rfl⟩
  | cons w t ih =>
      have hstep : (writeField w.1 w.2 s).changeListenersDisabled = true ∧
          (writeField w.1 w.2 s).pushes = s.pushes ∧
          (writeField w.1 w.2 s).changedEmits = s.changedEmits := by
        simp [writeField, onSetterTriggered, h]
      have h2 := ih (writeField w.1 w.2 s) hstep.1
      exact ⟨h2.1, h2.2.1.trans hstep.2.1, h2.2.2.trans hstep.2.2⟩

theorem onSetterTriggeredCounts (s : PState) (k : Option String)
    (h : s.changeListenersDisabled = false) :
    (onSetterTriggered k s).pushes.length = s.pushes.length + 1 ∧
    (onSetterTriggered k s).changedEmits.length = s.changedEmits.length + 1 := by
  simp [onSetterTriggered, h]

/-- C3 counterexample: a transaction whose body performs zero writes, on
an object with an active changed listener, still emits one changed event
(the claim says zero changed emissions when N is 0); it also performs its
one push. -/
theorem transactionEmptyStillEmits :
    hasListenersOfType c3Start Ev.changed = true ∧
    (transaction (runWrites []) c3Start).changedEmits.length = 1 ∧
    (transaction (runWrites []) c3Start).pushes.length = 1 := by
  decide

/-- C3 amended: for every body performing N schema field writes (N can be
0) and every starting state, transaction(body) performs exactly one push
and exactly one changed emission, including the case N equal to 0 (the
final flush emits unconditionally). -/
theorem transactionSinglePushSingleEmit (ws : List (String × Int)) (s : PState) :
    (transaction (runWrites ws) s).pushes.length = s.pushes.length + 1 ∧
    (transaction (runWrites ws) s).changedEmits.length = s.changedEmits.length + 1 := by
  have hd := runWritesDisabled ws (disableChangeListener s) rfl
  have hc := onSetterTriggeredCounts
    (enableChangeListener (runWrites ws (disableChangeListener s))) none rfl
  constructor
  · have h1 : (transaction (runWrites ws) s).pushes.length =
        (runWrites ws (disableChangeListener s)).pushes.length + 1 := hc.1
    rw [h1, hd.2.1]
    rfl
  · have h2 : (transaction (runWrites ws) s).changedEmits.length =
        (runWrites ws (disableChangeListener s)).changedEmits.length + 1 := hc.2
    rw [h2, hd.2.2]
    rfl

/-- C4 counterexample: after a transaction that wrote field a (a flush
that emitted and pushed), _accessedKeys still holds the staged key a, and
the next plain write of field b emits a changed event whose key set is
[a, b] rather than only [b]. -/
theorem accessedKeysNotClearedCounterexample :
    c4Mid.accessedKeys = [some "a"] ∧
    c4End.changedEmits.getLast? =
      some (ChangedPayload.setter [some "a", some "b"] [some 1, some 2]) := by
  decide

/-- C4 amended: a non-suspended setter flush leaves _accessedKeys exactly
as it was (the source never clears it), emits one changed event whose key
set is the staged keys plus the written key, and pushes the full shadow;
hence the changed key set of a later flush keeps every key ever staged
while suspended, not only the keys mutated after the previous flush. -/
theorem flushLeavesAccessedKeys (s : PState) (k : Option String)
    (h : s.changeListenersDisabled = false) :
    (onSetterTriggered k s).accessedKeys = s.accessedKeys ∧
    (onSetterTriggered k s).changedEmits = s.changedEmits ++
      [ChangedPayload.setter (s.accessedKeys ++ [k])
        ((s.accessedKeys ++ [k]).map (fun kk => kk.bind (fun kn => s.fields.lookup kn)))] ∧
    (onSetterTriggered k s).pushes = s.pushes ++ [(s.fields, s.priority)] := by
  simp [onSetterTriggered, h]

/-- C4 witness: the amended statement evaluated at a concrete enabled
state. -/
theorem flushLeavesAccessedKeysWitness :
    (mkInit "n" [("a", 0)]).changeListenersDisabled = false ∧
    (onSetterTriggered (some "a") (mkInit "n" [("a", 0)])).accessedKeys =
      (mkInit "n" [("a", 0)]).accessedKeys :=
  ⟨rfl, (flushLeavesAccessedKeys (mkInit "n" [("a", 0)]) (some "a") rfl).1⟩

/-- C5: evaluation of the first added subscription on a fresh object: a
local added listener exists afterwards, but the child added callback is
not registered, because the added case of on registers it only when
haveListeners was already true (every sibling case uses the negation). -/
theorem addedCallbackFirstListenerBug :
    hasListenersOfType (runSubOps (mkInit "n" []) [SubOp.subOn Ev.added 1 0]) Ev.added = true ∧
    (runSubOps (mkInit "n" []) [SubOp.subOn Ev.added 1 0]).addedCb = false := by
  decide

/-- C6 counterexample, refuting both failing parts of the claimed iff.
First: subscribing one changed listener and unsubscribing it again leaves
the value callback registered although no value listener and no changed
listener remains (the changed case of off removes the never-registered
child changed callback instead of the value callback).  Second:
subscribing one changed listener and one removed listener and then
unsubscribing the removed listener leaves the value callback detached
although a changed listener is still present (the removed case of off
removes the value callback whenever no value listener exists, ignoring
changed listeners). -/
theorem valueCbAttachedWithoutListeners :
    (c6Run.valueCb = true ∧ c6Run.subs Ev.value = [] ∧ c6Run.subs Ev.changed = []) ∧
    (c6RunB.valueCb = false ∧ c6RunB.subs Ev.changed = [{ fn := 1, ctx := 0 }] ∧
      c6RunB.subs Ev.value = []) := by
  decide

theorem invStepOn (e : Ev) (l : Listener) (s : PState)
    (h : s.subs Ev.value ≠ [] → s.valueCb = true) :
    (onEvt e l s).subs Ev.value ≠ [] → (onEvt e l s).valueCb = true := by
  intro hv
  cases e with
  | ready => exact h hv
  | value =>
      cases hl : hasListenersOfType s Ev.value with
      | true =>
          have hres : onEvt Ev.value l s = addSub Ev.value l s := by
            simp [onEvt, hl]
          rw [hres]
          exact h ((hasListenersNe s Ev.value).mp hl)
      | false =>
          have hres : onEvt Ev.value l s = { addSub Ev.value l s with valueCb := true } := by
            simp [onEvt, hl]
          rw [hres]
  | added =>
      cases hl : hasListenersOfType s Ev.added with
      | true =>
          have hres : onEvt Ev.added l s = { addSub Ev.added l s with addedCb := true } := by
            simp [onEvt, hl]
          rw [hres] at hv ⊢
          exact h hv
      | false =>
          have hres : onEvt Ev.added l s = addSub Ev.added l s := by
            simp [onEvt, hl]
          rw [hres] at hv ⊢
          exact h hv
  | changed =>
      have hx : hasListenersOfType (addSub Ev.changed l s) Ev.value
          = hasListenersOfType s Ev.value := rfl
      cases hl : hasListenersOfType s Ev.value with
      | true =>
          have hres : onEvt Ev.changed l s = addSub Ev.changed l s := by
            simp [onEvt, hx, hl]
          rw [hres] at hv ⊢
          exact h hv
      | false =>
          have hres : onEvt Ev.changed l s = { addSub Ev.changed l s with valueCb := true } := by
            simp [onEvt, hx, hl]
          rw [hres]
  | moved =>
      cases hl : hasListenersOfType s Ev.moved with
      | true =>
          have hres : onEvt Ev.moved l s = addSub Ev.moved l s := by
            simp [onEvt, hl]
          rw [hres] at hv ⊢
          exact h hv
      | false =>
          have hres : onEvt Ev.moved l s = { addSub Ev.moved l s with movedCb := true } := by
            simp [onEvt, hl]
          rw [hres] at hv ⊢
          exact h hv
  | removed =>
      cases hl : hasListenersOfType s Ev.removed with
      | true =>
          have hres : onEvt Ev.removed l s = addSub Ev.removed l s := by
            simp [onEvt, hl]
          rw [hres] at hv ⊢
          exact h hv
      | false =>
          have hres : onEvt Ev.removed l s = { addSub Ev.removed l s with removedCb := true } := by
            simp [onEvt, hl]
          rw [hres] at hv ⊢
          exact h hv

theorem invStepOff (e : Ev) (fn ctx : Option Nat) (s : PState)
    (h : s.subs Ev.value ≠ [] → s.valueCb = true) :
    (off e fn ctx s).subs Ev.value ≠ [] → (off e fn ctx s).valueCb = true := by
  intro hv
  cases e with
  | ready =>
      have hres : off Ev.ready fn ctx s = offRemove Ev.ready fn ctx s := by
        simp [off]
      rw [hres] at hv ⊢
      exact h hv
  | value =>
      cases hl : hasListenersOfType (offRemove Ev.value fn ctx s) Ev.value with
      | true =>
          have hres : off Ev.value fn ctx s = offRemove Ev.value fn ctx s := by
            simp [off, hl]
          rw [hres]
          have h0 : s.subs Ev.value ≠ [] := by
            intro hnil
            have hempty : (offRemove Ev.value fn ctx s).subs Ev.value = [] := by
              show removeMatches fn ctx (s.subs Ev.value) = []
              rw [hnil]
              exact removeMatchesNilOfNil fn ctx
            exact (hasListenersNe _ _).mp hl hempty
          exact h h0
      | false =>
          cases hl2 : hasListenersOfType (offRemove Ev.value fn ctx s) Ev.changed with
          | true =>
              have hres : off Ev.value fn ctx s = offRemove Ev.value fn ctx s := by
                simp [off, hl, hl2]
              rw [hres] at hv
              exact absurd ((hasListenersFalseNil _ _).mp hl) hv
          | false =>
              have hres : off Ev.value fn ctx s =
                  { offRemove Ev.value fn ctx s with valueCb := false } := by
                simp [off, hl, hl2]
              rw [hres] at hv
              exact absurd ((hasListenersFalseNil _ _).mp hl) hv
  | added =>
      cases hl : hasListenersOfType (offRemove Ev.added fn ctx s) Ev.added with
      | true =>
          have hres : off Ev.added fn ctx s = offRemove Ev.added fn ctx s := by
            simp [off, hl]
          rw [hres] at hv ⊢
          exact h hv
      | false =>
          have hres : off Ev.added fn ctx s =
              { offRemove Ev.added fn ctx s with addedCb := false } := by
            simp [off, hl]
          rw [hres] at hv ⊢
          exact h hv
  | moved =>
      cases hl : hasListenersOfType (offRemove Ev.moved fn ctx s) Ev.moved with
      | true =>
          have hres : off Ev.moved fn ctx s = offRemove Ev.moved fn ctx s := by
            simp [off, hl]
          rw [hres] at hv ⊢
          exact h hv
      | false =>
          have hres : off Ev.moved fn ctx s =
              { offRemove Ev.moved fn ctx s with movedCb := false } := by
            simp [off, hl]
          rw [hres] at hv ⊢
          exact h hv
  | removed =>
      cases hl : hasListenersOfType (offRemove Ev.removed fn ctx s) Ev.removed with
      | true =>
          have hres : off Ev.removed fn ctx s = offRemove Ev.removed fn ctx s := by
            simp [off, hl]
          rw [hres] at hv ⊢
          exact h hv
      | false =>
          cases hl2 : hasListenersOfType (offRemove Ev.removed fn ctx s) Ev.value with
          | true =>
              have hres : off Ev.removed fn ctx s = offRemove Ev.removed fn ctx s := by
                simp [off, hl, hl2]
              rw [hres] at hv ⊢
              exact h hv
          | false =>
              have hres : off Ev.removed fn ctx s =
                  { offRemove Ev.removed fn ctx s with valueCb := false } := by
                simp [off, hl, hl2]
              rw [hres] at hv
              exact absurd ((hasListenersFalseNil _ _).mp hl2) hv
  | changed =>
      cases hl : hasListenersOfType (offRemove Ev.changed fn ctx s) Ev.changed with
      | true =>
          have hres : off Ev.changed fn ctx s = offRemove Ev.changed fn ctx s := by
            simp [off, hl]
          rw [hres] at hv ⊢
          exact h hv
      | false =>
          have hres : off Ev.changed fn ctx s =
              { offRemove Ev.changed fn ctx s with childChangedCb := false } := by
            simp [off, hl]
          rw [hres] at hv ⊢
          exact h hv

theorem invRun (ops : List SubOp) (s : PState)
    (h : s.subs Ev.value ≠ [] → s.valueCb = true) :
    (runSubOps s ops).subs Ev.value ≠ [] → (runSubOps s ops).valueCb = true := by
  induction ops generalizing s with
  | nil => exact h
  | cons op t ih =>
      cases op with
      | subOn e fn ctx => exact ih (onEvt e ⟨fn, ctx⟩ s) (invStepOn e ⟨fn, ctx⟩ s h)
      | subOff e fn ctx => exact ih (off e fn ctx s) (invStepOff e fn ctx s h)

/-- C6 amended: for every sequence of subscribe and unsubscribe calls on a
fresh object, whenever at least one local value listener exists, the value
changed callback is registered on the DataSource.  This is the only part
of the claimed iff that holds: the counterexample shows both that the
callback can stay registered with no value listener and no changed
listener left, and that it can be detached while a changed listener is
still present. -/
theorem valueListenersImplyValueCb (key : String) (schema : List (String × Int))
    (ops : List SubOp)
    (h : hasListenersOfType (runSubOps (mkInit key schema) ops) Ev.value = true) :
    (runSubOps (mkInit key schema) ops).valueCb = true := by
  have hmain := invRun ops (mkInit key schema) (fun hv => absurd rfl hv)
  exact hmain ((hasListenersNe _ _).mp h)

/-- C6 witness: the amended statement evaluated at the sequence that
subscribes one value listener. -/
theorem valueListenersImplyValueCbWitness :
    hasListenersOfType (runSubOps (mkInit "n" []) [SubOp.subOn Ev.value 1 0]) Ev.value = true ∧
    (runSubOps (mkInit "n" []) [SubOp.subOn Ev.value 1 0]).valueCb = true :=
  ⟨by decide, valueListenersImplyValueCb "n" [] [SubOp.subOn Ev.value 1 0] (by decide)⟩

/-- C7: evaluation of once with a custom context distinct from the object:
after the event fires twice, the user handler has been called twice and
the wrapper is still subscribed, because the wrapper unsubscribes with the
caller context while it was registered with the object as context, so
eventemitter3 removes nothing. -/
theorem onceCustomContextBug :
    c7Run.handlerCalls = 2 ∧ c7Run.ls = [{ fn := 0, ctx := 0 }] := by
  decide

theorem beqFalseOfNe (a b : String) (h : ¬ a = b) : (a == b) = false := by
  cases hbe : a == b with
  | false => rfl
  | true => exact absurd (eq_of_beq hbe) h

theorem lookupSetFieldSelf (fs : List (String × Int)) (k : String) (v : Int)
    (h : (fs.lookup k).isSome = true) :
    (setField fs k v).lookup k = some v := by
  induction fs with
  | nil => simp [List.lookup] at h
  | cons a t ih =>
      obtain ⟨ak, av⟩ := a
      by_cases hk : ak = k
      · subst hk
        simp [setField, List.lookup]
      · have hne : (k == ak) = false := beqFalseOfNe k ak (fun hh => hk hh.symm)
        have h2 : (t.lookup k).isSome = true := by
          simpa [List.lookup, hne] using h
        have ih2 := ih h2
        simp [setField, List.lookup, hk, hne]
        exact ih2

theorem lookupSetFieldNe (fs : List (String × Int)) (k : String) (v : Int)
    (x : String) (h : x ≠ k) :
    (setField fs k v).lookup x = fs.lookup x := by
  induction fs with
  | nil => rfl
  | cons a t ih =>
      obtain ⟨ak, av⟩ := a
      by_cases hk : ak = k
      · subst hk
        have hne : (x == ak) = false := beqFalseOfNe x ak h
        simp [setField, List.lookup, hne]
        exact ih
      · by_cases hx : x = ak
        · subst hx
          simp [setField, List.lookup, hk]
        · have hne : (x == ak) = false := beqFalseOfNe x ak hx
          simp [setField, List.lookup, hk, hne]
          exact ih

theorem lookupIsSomeSetField (fs : List (String × Int)) (k : String) (v : Int)
    (x : String) :
    ((setField fs k v).lookup x).isSome = (fs.lookup x).isSome := by
  induction fs with
  | nil => rfl
  | cons a t ih =>
      obtain ⟨ak, av⟩ := a
      by_cases hk : ak = k
      · subst hk
        by_cases hx : x = ak
        · subst hx
          simp [setField, List.lookup]
        · have hne : (x == ak) = false := beqFalseOfNe x ak hx
          simp [setField, List.lookup, hne]
          exact ih
      · by_cases hx : x = ak
        · subst hx
          simp [setField, List.lookup, hk]
        · have hne : (x == ak) = false := beqFalseOfNe x ak hx
          simp [setField, List.lookup, hk, hne]
          exact ih

theorem applySnapFieldPriority (s : PState) (kv : String × Int) :
    (applySnapField s kv).priority = s.priority := by
  unfold applySnapField
  split <;> rfl

theorem foldlApplySnapPriority (data : List (String × Int)) (s : PState) :
    (data.foldl applySnapField s).priority = s.priority := by
  induction data generalizing s with
  | nil => rfl
  | cons a t ih =>
      show (t.foldl applySnapField (applySnapField s a)).priority = s.priority
      rw [ih (applySnapField s a), applySnapFieldPriority]

theorem applySnapFieldLookupNe (s : PState) (kv : String × Int) (k : String)
    (h : kv.1 ≠ k) :
    (applySnapField s kv).fields.lookup k = s.fields.lookup k := by
  unfold applySnapField
  split
  · exact lookupSetFieldNe s.fields kv.1 kv.2 k (fun hh => h hh.symm)
  · rfl

theorem foldlPreservesLookup (data : List (String × Int)) (s : PState) (k : String)
    (h : k ∉ data.map Prod.fst) :
    (data.foldl applySnapField s).fields.lookup k = s.fields.lookup k := by
  induction data generalizing s with
  | nil => rfl
  | cons a t ih =>
      have hne : a.1 ≠ k := by
        intro hh
        exact h (by simp [hh.symm])
      have ht : k ∉ t.map Prod.fst := by
        intro hh
        exact h (by simp [hh])
      show (t.foldl applySnapField (applySnapField s a)).fields.lookup k = s.fields.lookup k
      rw [ih (applySnapField s a) ht, applySnapFieldLookupNe s a k hne]

theorem applySnapFieldIsSome (s : PState) (kv : String × Int) (k : String) :
    ((applySnapField s kv).fields.lookup k).isSome = (s.fields.lookup k).isSome := by
  unfold applySnapField
  split
  · exact lookupIsSomeSetField s.fields kv.1 kv.2 k
  · rfl

theorem foldlSetsLookup (data : List (String × Int)) (s : PState) (k : String) (v : Int)
    (hnd : (data.map Prod.fst).Nodup) (hmem : (k, v) ∈ data)
    (hdecl : (s.fields.lookup k).isSome = true) :
    (data.foldl applySnapField s).fields.lookup k = some v := by
  induction data generalizing s with
  | nil => cases hmem
  | cons a t ih =>
      have hnd2 : a.1 ∉ t.map Prod.fst ∧ (t.map Prod.fst).Nodup := by
        rw [List.map_cons, List.nodup_cons] at hnd
        exact hnd
      rcases List.mem_cons.mp hmem with heq | hmemt
      · subst heq
        have hset : (applySnapField s (k, v)).fields.lookup k = some v := by
          have hres : applySnapField s (k, v) = { s with fields := setField s.fields k v } := by
            unfold applySnapField
            rw [if_pos hdecl]
          rw [hres]
          exact lookupSetFieldSelf s.fields k v hdecl
        show (t.foldl applySnapField (applySnapField s (k, v))).fields.lookup k = some v
        rw [foldlPreservesLookup t (applySnapField s (k, v)) k hnd2.1, hset]
      · have hne : a.1 ≠ k := by
          intro hh
          apply hnd2.1
          rw [hh]
          exact List.mem_map_of_mem Prod.fst hmemt
        have hdecl2 : ((applySnapField s a).fields.lookup k).isSome = true := by
          rw [applySnapFieldIsSome]
          exact hdecl
        show (t.foldl applySnapField (applySnapField s a)).fields.lookup k = some v
        exact ih (applySnapField s a) hnd2.2 hmemt hdecl2

theorem buildFromSnapshotLookup (snap : Snapshot) (s : PState) (k : String) (v : Int)
    (hnd : (snap.val.map Prod.fst).Nodup) (hmem : (k, v) ∈ snap.val)
    (hdecl : (s.fields.lookup k).isSome = true) :
    (buildFromSnapshot snap s).fields.lookup k = some v ∧
    (buildFromSnapshot snap s).priority = snap.priority := by
  have hne : snap.val ≠ [] := by
    intro hh
    rw [hh] at hmem
    cases hmem
  have hlen : ¬ (snap.val.length = 0) := fun h0 => hne (List.length_eq_zero.mp h0)
  unfold buildFromSnapshot
  simp only [hlen, if_false]
  constructor
  · show (snap.val.foldl applySnapField _).fields.lookup k = some v
    split
    · exact foldlSetsLookup snap.val _ k v hnd hmem hdecl
    · exact foldlSetsLookup snap.val _ k v hnd hmem hdecl
  · show (snap.val.foldl applySnapField _).priority = snap.priority
    split
    · rw [foldlApplySnapPriority]
    · rw [foldlApplySnapPriority]

/-- C8: for every snapshot with duplicate-free keys, constructing an
object from it gives each declared schema field that is present in the
snapshot value exactly the snapshot value for that key, and gives the
object the snapshot priority. -/
theorem materializationFromSnapshot (key k : String) (v : Int)
    (schema : List (String × Int)) (snap : Snapshot)
    (hnd : (snap.val.map Prod.fst).Nodup)
    (hmem : (k, v) ∈ snap.val)
    (hdecl : (schema.lookup k).isSome = true) :
    (constructFromSnapshot key schema snap).fields.lookup k = some v ∧
    (constructFromSnapshot key schema snap).priority = snap.priority :=
  buildFromSnapshotLookup snap (mkInit key schema) k v hnd hmem hdecl

/-- C8 witness: the materialization statement evaluated at the two-field
schema, a snapshot with name 9 and score 1 at priority 5, and the score
field. -/
theorem materializationFromSnapshotWitness :
    (c8Snap.val.map Prod.fst).Nodup ∧ ("score", (1 : Int)) ∈ c8Snap.val ∧
    (c8Schema.lookup "score").isSome = true ∧
    ((constructFromSnapshot "n" c8Schema c8Snap).fields.lookup "score" = some 1 ∧
      (constructFromSnapshot "n" c8Schema c8Snap).priority = 5) := by
  refine ⟨by decide, by decide, by decide, ?_⟩
  have h := materializationFromSnapshot "n" "score" 1 c8Schema c8Snap
    (by decide) (by decide) (by decide)
  exact ⟨h.1, h.2⟩

/-- C9 counterexample: a write of the current priority value (0 on a fresh
object) issues no remote priority update, because the setter is guarded by
an inequality test; the claim says every write triggers one. -/
theorem priorityEqualWriteNoUpdate :
    (mkInit "n" []).priority = 0 ∧
    (setPriorityProp 0 (mkInit "n" [])).priorityUpdates = [] := by
  decide

/-- C9 amended: a write of a value different from the current priority
always issues exactly one immediate setPriority update, regardless of the
suspension flag, and never goes through _accessedKeys or the
setWithPriority batching path; a write of the current value does
nothing. -/
theorem priorityDistinctWriteUpdates (s : PState) (v : Int) (h : v ≠ s.priority) :
    (setPriorityProp v s).priorityUpdates = s.priorityUpdates ++ [v] ∧
    (setPriorityProp v s).priority = v ∧
    (setPriorityProp v s).accessedKeys = s.accessedKeys ∧
    (setPriorityProp v s).pushes = s.pushes ∧
    (setPriorityProp v s).changeListenersDisabled = s.changeListenersDisabled := by
  have hp : s.priority ≠ v := fun hh => h hh.symm
  simp [setPriorityProp, hp]

/-- C9 witness: the amended statement evaluated at a fresh object and the
value 1. -/
theorem priorityDistinctWriteUpdatesWitness :
    (1 : Int) ≠ (mkInit "n" []).priority ∧
    (setPriorityProp 1 (mkInit "n" [])).priorityUpdates =
      (mkInit "n" []).priorityUpdates ++ [1] :=
  ⟨by decide, (priorityDistinctWriteUpdates (mkInit "n" []) 1 (by decide)).1⟩

/-- C10: for every body and every starting state, including states where
change propagation was already suspended, transaction(body) returns with
the suspension flag false, and the final flush has pushed the shadow once
and emitted one more changed event than the body left behind. -/
theorem transactionReenablesAndFlushes (body : PState → PState) (s : PState) :
    (transaction body s).changeListenersDisabled = false ∧
    (transaction body s).pushes =
      (body (disableChangeListener s)).pushes ++
        [((body (disableChangeListener s)).fields,
          (body (disableChangeListener s)).priority)] ∧
    (transaction body s).changedEmits.length =
      (body (disableChangeListener s)).changedEmits.length + 1 := by
  refine ⟨rfl, rfl, ?_⟩
  show ((body (disableChangeListener s)).changedEmits ++ [_]).length = _
  simp

end ArvaSync
